import Mathlib

/-!
Shallow embedding of the stochastic file-partitioning and manifest-generation
subsystem of `src/DataPrep.py` (functions `move_files`, `copy_files`,
`generate_csv`), together with theorems settling the specification claims.

Modelling conventions:
* A directory listing (`os.listdir`) is a `List Entry`, each entry carrying its
  name and the result of `os.path.isfile` on its joined path.
* `percentage` (a Python float, used only in exact comparisons and one
  multiplication/division by 100) is modelled as a rational number; Python's
  `int(...)` truncation coincides with the floor on the non-negative values
  that occur after validation.
* `random.sample(files, k)` is modelled as taking the first `k` elements of a
  caller-supplied permutation of `files` (the permutation is the randomness:
  every possible draw without replacement arises this way). Theorems quantify
  over all permutations, hence hold for every random outcome.
* The reachable filesystem state is modelled explicitly (source listing,
  destination listing, destination-directory existence, manifest contents);
  Python exceptions become an `Option DPError` paired with the state as of the
  raise (an exception leaves the filesystem exactly as it was when raised).
* Per-file transfer failures (`shutil.move`/`shutil.copy2` raising, caught by
  the `try/except` in the loop) are modelled by a failure oracle
  `failP : String → Bool`; a failing transfer leaves the state unchanged.
-/

namespace DataPrep

open scoped List

/-- The two error classes raised by the validated phase: `FileNotFoundError`
(NotFound) and `ValueError` (InvalidArgument). -/
inductive DPError where
  | notFound
  | invalidArgument
deriving DecidableEq

/-- One entry of a directory listing: its filename and whether
`os.path.isfile(os.path.join(dir, name))` holds (regular file vs subdirectory). -/
structure Entry where
  name : String
  isFile : Bool
deriving DecidableEq

/-- Python's `str.lower()`, modelled charwise (ASCII case folding, the domain
of the extension strings the code compares). -/
def pyLower (s : String) : String := ⟨s.data.map Char.toLower⟩

/-- Python's `s.endswith(suf)`: `suf` equals the last `len(suf)` characters of
`s` (`s.endswith("") == True`). -/
def pyEndsWith (s suf : String) : Bool :=
  suf.data == s.data.drop (s.data.length - suf.data.length)

/-- The extension test of the list comprehensions in `move_files` (line 86) and
`copy_files` (line 140): `file_extension is None or
filename.lower().endswith(file_extension.lower())`. -/
def matchesExt (extension : Option String) (filename : String) : Bool :=
  match extension with
  | none => true
  | some e => pyEndsWith (pyLower filename) (pyLower e)

/-- The `files` list comprehension of `move_files` (lines 83–87) and
`copy_files` (lines 137–141): names of entries that are regular files and pass
the extension test. -/
def listFiles (entries : List Entry) (extension : Option String) : List String :=
  (entries.filter fun en => en.isFile && matchesExt extension en.name).map Entry.name

/-- The draw-count computation of `move_files` (lines 90–92) and `copy_files`
(lines 144–146): `num = int(len(files) * percentage / 100)`, then
`if num == 0 and len(files) > 0: num = 1`. Note the code tests only
`len(files) > 0`, not `percentage > 0`. -/
def numFilesToTransfer (len : Nat) (percentage : ℚ) : Nat :=
  let n : Nat := (⌊(len : ℚ) * percentage / 100⌋).toNat
  if n = 0 ∧ 0 < len then 1 else n

/-- `files = random.sample(files, num_files_to_move)` (lines 93 / 147):
the first `numFilesToTransfer` elements of a permutation of `files` supplied
by the random source `shuffle`. -/
def sampleFiles (files : List String) (percentage : ℚ)
    (shuffle : List String → List String) : List String :=
  (shuffle files).take (numFilesToTransfer files.length percentage)

/-- The candidate-set computation shared by `move_files` and `copy_files`
(lines 83–93 / 137–147): select by extension, then sample when a percentage is
given (`percentage = None` skips sampling). -/
def chosenFiles (entries : List Entry) (extension : Option String)
    (percentage : Option ℚ) (shuffle : List String → List String) : List String :=
  let files := listFiles entries extension
  match percentage with
  | none => files
  | some p => sampleFiles files p shuffle

/-- The percentage validation of lines 75–77 / 129–131:
`percentage is not None and not (0 <= percentage <= 100)` raises. -/
def validatePercentage (percentage : Option ℚ) : Bool :=
  match percentage with
  | none => true
  | some p => decide (0 ≤ p ∧ p ≤ 100)

/-- Filesystem state visible to `move_files`/`copy_files`: whether the source
path is a directory, its listing, whether the destination directory exists,
and the destination's file names. -/
structure DirState where
  sourceIsDir : Bool
  source : List Entry
  destDirExists : Bool
  dest : List String
deriving DecidableEq

/-- Placing a transferred file at the destination: its name becomes present
there (overwriting the previous file of that name, if any). -/
def destInsert (dest : List String) (filename : String) : List String :=
  if filename ∈ dest then dest else dest ++ [filename]

/-- One iteration of the transfer loop of `move_files` (lines 95–102):
`shutil.move` removes the named file from the source and places it at the
destination; an exception (`fails = true`) is caught and leaves the state
unchanged. -/
def moveOne (st : DirState) (filename : String) (fails : Bool) : DirState :=
  if fails then st
  else
    { st with
      source := st.source.eraseP fun en => en.name == filename
      dest := destInsert st.dest filename }

/-- One iteration of the transfer loop of `copy_files` (lines 149–156):
`shutil.copy2` duplicates the file at the destination, the source entry is
unchanged; an exception is caught and leaves the state unchanged. -/
def copyOne (st : DirState) (filename : String) (fails : Bool) : DirState :=
  if fails then st
  else { st with dest := destInsert st.dest filename }

/-- `move_files(source_dir, dest_dir, file_extension, percentage)`
(lines 51–103): validate source directory, validate percentage, create the
destination directory, select and sample, then move each chosen file with
per-file failure tolerance. Returns the raised error (if any) paired with the
filesystem state as of return/raise. -/
def move_files (st : DirState) (extension : Option String) (percentage : Option ℚ)
    (shuffle : List String → List String) (failP : String → Bool) :
    Option DPError × DirState :=
  if !st.sourceIsDir then (some .notFound, st)
  else if !validatePercentage percentage then (some .invalidArgument, st)
  else
    let st1 := { st with destDirExists := true }
    let files := chosenFiles st1.source extension percentage shuffle
    (none, files.foldl (fun s fn => moveOne s fn (failP fn)) st1)

/-- `copy_files(source_dir, dest_dir, file_extension, percentage)`
(lines 105–157): identical to `move_files` except the per-file transfer is a
copy. -/
def copy_files (st : DirState) (extension : Option String) (percentage : Option ℚ)
    (shuffle : List String → List String) (failP : String → Bool) :
    Option DPError × DirState :=
  if !st.sourceIsDir then (some .notFound, st)
  else if !validatePercentage percentage then (some .invalidArgument, st)
  else
    let st1 := { st with destDirExists := true }
    let files := chosenFiles st1.source extension percentage shuffle
    (none, files.foldl (fun s fn => copyOne s fn (failP fn)) st1)

/-- Filesystem state visible to `generate_csv`: the source directory and the
manifest (its existence as a file, and its rows). -/
structure CsvState where
  sourceIsDir : Bool
  source : List Entry
  manifestExists : Bool
  manifest : List (List String)
deriving DecidableEq

/-- The row written for one regular file (lines 197–199): `[filename]`, with
the label appended when `label is not None`. -/
def csvRow (label : Option String) (filename : String) : List String :=
  match label with
  | none => [filename]
  | some l => [filename, l]

/-- The rows appended by the loop of lines 194–200: one `csvRow` per regular
file of the source listing, in listing order. -/
def dataRows (entries : List Entry) (label : Option String) : List (List String) :=
  (entries.filter fun en => en.isFile).map fun en => csvRow label en.name

/-- `generate_csv(csv_filename, source_dir, columns, label)` (lines 159–202):
validate the source directory, record manifest existence, open the manifest in
append mode (which creates the file if absent — before the columns check),
write the header iff the file did not exist (raising `ValueError` when columns
are missing), then append one row per regular file. -/
def generate_csv (st : CsvState) (columns : Option (List String))
    (label : Option String) : Option DPError × CsvState :=
  if !st.sourceIsDir then (some .notFound, st)
  else
    let file_exists := st.manifestExists
    let st1 := { st with manifestExists := true }
    if !file_exists then
      match columns with
      | none => (some .invalidArgument, st1)
      | some cols =>
          (none, { st1 with manifest := st1.manifest ++ [cols] ++ dataRows st1.source label })
    else (none, { st1 with manifest := st1.manifest ++ dataRows st1.source label })

/-! ### General lemmas about the embedded operations -/

theorem floor_count_le (L : Nat) (p : ℚ) (h1 : p ≤ 100) :
    (⌊(L : ℚ) * p / 100⌋).toNat ≤ L := by
  have hq : (L : ℚ) * p / 100 ≤ (L : ℚ) := by
    rw [div_le_iff₀ (by norm_num : (0:ℚ) < 100)]
    exact mul_le_mul_of_nonneg_left h1 (Nat.cast_nonneg L)
  have hfl : ⌊(L : ℚ) * p / 100⌋ ≤ (L : ℤ) := by
    calc ⌊(L : ℚ) * p / 100⌋ ≤ ⌊(L : ℚ)⌋ := Int.floor_le_floor hq
    _ = (L : ℤ) := Int.floor_natCast L
  exact Int.toNat_le.mpr hfl

theorem numFilesToTransfer_le (L : Nat) (p : ℚ) (h1 : p ≤ 100) :
    numFilesToTransfer L p ≤ L := by
  simp only [numFilesToTransfer]
  split
  · next h => exact h.2
  · exact floor_count_le L p h1

theorem numFilesToTransfer_eq_max (L : Nat) (p : ℚ) (hL : 0 < L) :
    numFilesToTransfer L p = max 1 (⌊(L : ℚ) * p / 100⌋).toNat := by
  simp only [numFilesToTransfer]
  split
  · next h => omega
  · next h => omega

theorem listFiles_sublist (entries : List Entry) (extension : Option String) :
    listFiles entries extension <+ entries.map Entry.name :=
  List.Sublist.map Entry.name (List.filter_sublist entries)

theorem chosenFiles_nodup_and_subset (entries : List Entry)
    (extension : Option String) (percentage : Option ℚ)
    (shuffle : List String → List String)
    (hperm : ∀ l, shuffle l ~ l) (hnd : (entries.map Entry.name).Nodup) :
    (chosenFiles entries extension percentage shuffle).Nodup
    ∧ ∀ f ∈ chosenFiles entries extension percentage shuffle,
        f ∈ entries.map Entry.name := by
  have hfnd : (listFiles entries extension).Nodup :=
    List.Nodup.sublist (listFiles_sublist entries extension) hnd
  cases percentage with
  | none =>
    exact ⟨hfnd, fun f hf => (listFiles_sublist entries extension).subset hf⟩
  | some p =>
    constructor
    · exact List.Nodup.sublist (List.take_sublist _ _)
        ((hperm (listFiles entries extension)).symm.nodup hfnd)
    · intro f hf
      exact (listFiles_sublist entries extension).subset
        ((hperm (listFiles entries extension)).subset (List.take_subset _ _ hf))

/-! ### Claim theorems -/

/-- **C10.** For every file-list length `L` and every percentage `p` passing
the up-front validation (`0 ≤ p ≤ 100`), the draw count computed at lines
90–92 / 144–146 is at most `L` (the floor is bounded by `⌊L⌋ = L` and the
raise-to-1 only fires when the list is non-empty), so the modelled
`random.sample` — taking that many elements of a permutation of the list —
is total: it never asks for more elements than the population has. -/
theorem numFilesToTransfer_within_population (L : Nat) (p : ℚ)
    (h0 : 0 ≤ p) (h1 : p ≤ 100) : numFilesToTransfer L p ≤ L :=
  numFilesToTransfer_le L p h1

theorem numFilesToTransfer_within_population_witness :
    numFilesToTransfer 3 50 ≤ 3 :=
  numFilesToTransfer_within_population 3 50 (by norm_num) (by norm_num)

/-- **C6.** Selection correctness: a filename is selected with extension
`None` exactly when it names a regular file of the listing, and with an
extension string exactly when it names a regular file whose lowercased name
ends with the lowercased extension. -/
theorem listFiles_selection_correct (entries : List Entry) (f : String) :
    (f ∈ listFiles entries none ↔ ∃ en ∈ entries, en.isFile = true ∧ en.name = f)
    ∧ ∀ e : String,
      (f ∈ listFiles entries (some e) ↔
        ∃ en ∈ entries, en.isFile = true
          ∧ pyEndsWith (pyLower en.name) (pyLower e) = true ∧ en.name = f) := by
  constructor
  · simp [listFiles, matchesExt, List.mem_map, List.mem_filter, and_assoc]
  · intro e
    simp [listFiles, matchesExt, List.mem_map, List.mem_filter, and_assoc]

/-- **C3.** A nonexistent source directory raises NotFound, an out-of-range
percentage raises InvalidArgument, and in both cases `move_files` and
`copy_files` return with the filesystem state exactly as it was: the
destination directory is not created and no file is transferred. -/
theorem invalid_inputs_fail_before_mutation (st : DirState)
    (extension : Option String) (percentage : Option ℚ)
    (shuffle : List String → List String) (failP : String → Bool)
    (h : st.sourceIsDir = false
        ∨ ∃ p, percentage = some p ∧ ¬(0 ≤ p ∧ p ≤ 100)) :
    move_files st extension percentage shuffle failP
      = (some (if st.sourceIsDir then DPError.invalidArgument else DPError.notFound), st)
    ∧ copy_files st extension percentage shuffle failP
      = (some (if st.sourceIsDir then DPError.invalidArgument else DPError.notFound), st) := by
  rcases h with h | ⟨p, hp, hrange⟩
  · simp [move_files, copy_files, h]
  · by_cases hd : st.sourceIsDir
    · have hv : validatePercentage percentage = false := by
        simp [validatePercentage, hp, hrange]
      simp [move_files, copy_files, hd, hv]
    · simp only [Bool.not_eq_true] at hd
      simp [move_files, copy_files, hd]

theorem invalid_inputs_fail_before_mutation_witness :
    move_files ⟨false, [], false, []⟩ none none id (fun _ => false)
      = (some DPError.notFound, ⟨false, [], false, []⟩)
    ∧ copy_files ⟨false, [], false, []⟩ none none id (fun _ => false)
      = (some DPError.notFound, ⟨false, [], false, []⟩) :=
  invalid_inputs_fail_before_mutation _ _ _ _ _ (Or.inl rfl)

/-- **C1.** Counter-evidence for the claim that percentage 0 yields zero
transfers: with two files and `percentage = 0` the code computes
`int(2*0/100) = 0` and then — testing only `len(files) > 0`, not
`percentage > 0` as its own comment states — raises the count to 1, samples
one file, and `move_files` transfers it. -/
theorem zero_percentage_still_transfers :
    numFilesToTransfer 2 0 = 1
    ∧ sampleFiles ["a", "b"] 0 id = ["a"]
    ∧ (move_files ⟨true, [⟨"a", true⟩, ⟨"b", true⟩], false, []⟩ none (some 0) id
        (fun _ => false)).2.dest = ["a"] := by
  refine ⟨by norm_num [numFilesToTransfer],
    by norm_num [sampleFiles, numFilesToTransfer], ?_⟩
  norm_num [move_files, validatePercentage, chosenFiles, listFiles, matchesExt,
    sampleFiles, numFilesToTransfer, moveOne, destInsert]

/-- **C2.** Counterexample to "no manifest file is created": on a fresh
manifest path with `columns = None` the call raises InvalidArgument, yet the
manifest file exists afterwards — the append-mode `open` at line 185 creates
it before the columns check at lines 187–190 runs. -/
theorem generate_csv_missing_columns_creates_file :
    (generate_csv ⟨true, [⟨"a", true⟩], false, []⟩ none none).1
        = some DPError.invalidArgument
    ∧ (generate_csv ⟨true, [⟨"a", true⟩], false, []⟩ none none).2.manifestExists = true
    ∧ (⟨true, [⟨"a", true⟩], false, []⟩ : CsvState).manifestExists = false := by
  decide

/-- **C2 (amended).** Calling `generate_csv` on a nonexistent manifest path
with `columns = None` raises InvalidArgument and writes nothing — no header,
no rows, manifest content unchanged — but the append-mode open has already
created the manifest file, so afterwards the path exists as an empty
manifest. -/
theorem generate_csv_missing_columns_raises (st : CsvState) (label : Option String)
    (hdir : st.sourceIsDir = true) (hnew : st.manifestExists = false) :
    generate_csv st none label
      = (some DPError.invalidArgument, { st with manifestExists := true }) := by
  simp [generate_csv, hdir, hnew]

theorem generate_csv_missing_columns_raises_witness :
    generate_csv ⟨true, [], false, []⟩ none none
      = (some DPError.invalidArgument, ⟨true, [], true, []⟩) :=
  generate_csv_missing_columns_raises _ none rfl rfl

/-- **C4.** Idempotent-header law: two calls of `generate_csv` on an
initially nonexistent manifest path with the same columns both succeed and
leave the manifest holding exactly one header line followed by two full sets
of data rows; the second call writes no header and does not truncate or
rewrite the first call's content. -/
theorem manifest_header_written_once (st : CsvState) (cols : List String)
    (label : Option String) (hdir : st.sourceIsDir = true)
    (hnew : st.manifestExists = false) (hempty : st.manifest = []) :
    (generate_csv st (some cols) label).1 = none
    ∧ (generate_csv (generate_csv st (some cols) label).2 (some cols) label).1 = none
    ∧ (generate_csv (generate_csv st (some cols) label).2 (some cols) label).2.manifest
        = cols :: (dataRows st.source label ++ dataRows st.source label) := by
  simp [generate_csv, hdir, hnew, hempty]

theorem manifest_header_written_once_witness :
    (generate_csv ⟨true, [⟨"a", true⟩], false, []⟩ (some ["file", "lbl"]) (some "x")).1 = none
    ∧ (generate_csv (generate_csv ⟨true, [⟨"a", true⟩], false, []⟩
          (some ["file", "lbl"]) (some "x")).2 (some ["file", "lbl"]) (some "x")).1 = none
    ∧ (generate_csv (generate_csv ⟨true, [⟨"a", true⟩], false, []⟩
          (some ["file", "lbl"]) (some "x")).2 (some ["file", "lbl"]) (some "x")).2.manifest
        = ["file", "lbl"] :: (dataRows [⟨"a", true⟩] (some "x")
            ++ dataRows [⟨"a", true⟩] (some "x")) :=
  manifest_header_written_once ⟨true, [⟨"a", true⟩], false, []⟩ ["file", "lbl"]
    (some "x") rfl rfl rfl

/-- **C9.** Manifest row content and frame: on an existing manifest,
`generate_csv` succeeds, appends exactly one row per regular file of the
source listing — `[filename, label]` when a label is supplied, `[filename]`
alone otherwise — leaves every previously existing row unchanged in place,
and ignores the `columns` argument entirely. -/
theorem generate_csv_row_and_frame (st : CsvState) (columns : Option (List String))
    (label : Option String) (hdir : st.sourceIsDir = true)
    (hex : st.manifestExists = true) :
    (generate_csv st columns label).1 = none
    ∧ (generate_csv st columns label).2.manifest
        = st.manifest ++ (st.source.filter fun en => en.isFile).map
            (fun en => match label with
              | none => [en.name]
              | some l => [en.name, l])
    ∧ generate_csv st columns label = generate_csv st none label := by
  cases label <;> simp [generate_csv, hdir, hex, dataRows, csvRow]

theorem generate_csv_row_and_frame_witness :
    (generate_csv ⟨true, [⟨"a", true⟩, ⟨"d", false⟩], true, [["x"]]⟩
        (some ["c"]) (some "lbl")).1 = none
    ∧ (generate_csv ⟨true, [⟨"a", true⟩, ⟨"d", false⟩], true, [["x"]]⟩
        (some ["c"]) (some "lbl")).2.manifest
        = [["x"]] ++ (([⟨"a", true⟩, ⟨"d", false⟩] : List Entry).filter
            fun en => en.isFile).map (fun en => [en.name, "lbl"])
    ∧ generate_csv ⟨true, [⟨"a", true⟩, ⟨"d", false⟩], true, [["x"]]⟩
        (some ["c"]) (some "lbl")
      = generate_csv ⟨true, [⟨"a", true⟩, ⟨"d", false⟩], true, [["x"]]⟩ none (some "lbl") :=
  generate_csv_row_and_frame ⟨true, [⟨"a", true⟩, ⟨"d", false⟩], true, [["x"]]⟩
    (some ["c"]) (some "lbl") rfl rfl

/-- **C5.** For every duplicate-free file list of positive length `L` and
percentage `0 < p ≤ 100`, the sampling step of `move_files`/`copy_files`
selects exactly `max 1 ⌊L*p/100⌋` files, and — for every possible draw of the
random source, modelled as an arbitrary permutation of the list — the
selected files are duplicate-free and all drawn from the input list. -/
theorem sample_step_spec (files : List String) (p : ℚ)
    (shuffle : List String → List String)
    (hperm : shuffle files ~ files) (hnd : files.Nodup)
    (hlen : 0 < files.length) (hp0 : 0 < p) (hp1 : p ≤ 100) :
    (sampleFiles files p shuffle).length
        = max 1 (⌊(files.length : ℚ) * p / 100⌋).toNat
    ∧ (sampleFiles files p shuffle).Nodup
    ∧ ∀ f ∈ sampleFiles files p shuffle, f ∈ files := by
  have hk : numFilesToTransfer files.length p ≤ files.length :=
    numFilesToTransfer_le files.length p hp1
  refine ⟨?_, ?_, ?_⟩
  · have hlen' : (sampleFiles files p shuffle).length
        = numFilesToTransfer files.length p := by
      simp only [sampleFiles, List.length_take, hperm.length_eq]
      omega
    rw [hlen', numFilesToTransfer_eq_max files.length p hlen]
  · exact List.Nodup.sublist (List.take_sublist _ _) (hperm.symm.nodup hnd)
  · intro f hf
    exact hperm.subset (List.take_subset _ _ hf)

theorem sample_step_spec_witness :
    (sampleFiles ["a"] 100 id).length
        = max 1 (⌊(((["a"] : List String).length : ℚ) * 100 / 100)⌋).toNat
    ∧ (sampleFiles ["a"] 100 id).Nodup
    ∧ ∀ f ∈ sampleFiles ["a"] 100 id, f ∈ (["a"] : List String) :=
  sample_step_spec ["a"] 100 id (List.Perm.refl _) (by decide) (by decide)
    (by norm_num) (by norm_num)

theorem mem_destInsert_self (dest : List String) (fn : String) :
    fn ∈ destInsert dest fn := by
  by_cases h : fn ∈ dest <;> simp [destInsert, h]

theorem mem_destInsert_of_mem {x : String} {dest : List String} (fn : String)
    (hx : x ∈ dest) : x ∈ destInsert dest fn := by
  by_cases h : fn ∈ dest <;> simp [destInsert, h, hx]

theorem fold_dest_keep (g : DirState → String → DirState)
    (hkeep : ∀ s fn x, x ∈ s.dest → x ∈ (g s fn).dest) :
    ∀ (files : List String) (st : DirState) (x : String),
      x ∈ st.dest → x ∈ (files.foldl g st).dest := by
  intro files
  induction files with
  | nil => intro st x hx; simpa using hx
  | cons a rest ih =>
    intro st x hx
    exact ih (g st a) x (hkeep st a x hx)

theorem fold_dest_reaches (g : DirState → String → DirState)
    (failP : String → Bool)
    (hkeep : ∀ s fn x, x ∈ s.dest → x ∈ (g s fn).dest)
    (hput : ∀ s fn, failP fn = false → fn ∈ (g s fn).dest) :
    ∀ (files : List String) (st : DirState) (f : String),
      f ∈ files → failP f = false → f ∈ (files.foldl g st).dest := by
  intro files
  induction files with
  | nil => intro st f hf; cases hf
  | cons a rest ih =>
    intro st f hf hok
    rcases List.mem_cons.1 hf with rfl | hf'
    · exact fold_dest_keep g hkeep rest (g st f) f (hput st f hok)
    · exact ih (g st a) f hf' hok

theorem moveOne_dest_keep (s : DirState) (fn x : String) (b : Bool)
    (hx : x ∈ s.dest) : x ∈ (moveOne s fn b).dest := by
  cases b <;> simp [moveOne, mem_destInsert_of_mem, hx]

theorem copyOne_dest_keep (s : DirState) (fn x : String) (b : Bool)
    (hx : x ∈ s.dest) : x ∈ (copyOne s fn b).dest := by
  cases b <;> simp [copyOne, mem_destInsert_of_mem, hx]

/-- **C8.** Per-file failure tolerance: under valid inputs (source directory
present, percentage in range) `move_files` and `copy_files` return without
raising no matter which per-file transfers fail, and a failure of one file
does not abort the rest of the batch — every chosen file whose own transfer
does not fail is present at the destination afterwards, regardless of the
failures of the other files. -/
theorem transfer_failures_isolated (st : DirState) (extension : Option String)
    (percentage : Option ℚ) (shuffle : List String → List String)
    (failP : String → Bool) (hdir : st.sourceIsDir = true)
    (hp : validatePercentage percentage = true) :
    (move_files st extension percentage shuffle failP).1 = none
    ∧ (copy_files st extension percentage shuffle failP).1 = none
    ∧ ∀ f ∈ chosenFiles st.source extension percentage shuffle, failP f = false →
        f ∈ (move_files st extension percentage shuffle failP).2.dest
        ∧ f ∈ (copy_files st extension percentage shuffle failP).2.dest := by
  have hmv : move_files st extension percentage shuffle failP
      = (none, (chosenFiles st.source extension percentage shuffle).foldl
          (fun s fn => moveOne s fn (failP fn)) { st with destDirExists := true }) := by
    simp [move_files, hdir, hp]
  have hcp : copy_files st extension percentage shuffle failP
      = (none, (chosenFiles st.source extension percentage shuffle).foldl
          (fun s fn => copyOne s fn (failP fn)) { st with destDirExists := true }) := by
    simp [copy_files, hdir, hp]
  refine ⟨by rw [hmv], by rw [hcp], fun f hf hok => ⟨?_, ?_⟩⟩
  · rw [hmv]
    exact fold_dest_reaches _ failP
      (fun s fn x hx => moveOne_dest_keep s fn x (failP fn) hx)
      (fun s fn hz => by simp [moveOne, hz, mem_destInsert_self])
      _ _ f hf hok
  · rw [hcp]
    exact fold_dest_reaches _ failP
      (fun s fn x hx => copyOne_dest_keep s fn x (failP fn) hx)
      (fun s fn hz => by simp [copyOne, hz, mem_destInsert_self])
      _ _ f hf hok

theorem transfer_failures_isolated_witness :
    (move_files ⟨true, [⟨"a", true⟩], false, []⟩ none none id (fun _ => false)).1 = none
    ∧ (copy_files ⟨true, [⟨"a", true⟩], false, []⟩ none none id (fun _ => false)).1 = none
    ∧ ∀ f ∈ chosenFiles [⟨"a", true⟩] none none id, (fun _ : String => false) f = false →
        f ∈ (move_files ⟨true, [⟨"a", true⟩], false, []⟩ none none id
              (fun _ => false)).2.dest
        ∧ f ∈ (copy_files ⟨true, [⟨"a", true⟩], false, []⟩ none none id
              (fun _ => false)).2.dest :=
  transfer_failures_isolated ⟨true, [⟨"a", true⟩], false, []⟩ none none id
    (fun _ => false) rfl rfl

theorem move_fold_source_sublist (failP : String → Bool) :
    ∀ (files : List String) (st : DirState),
      (files.foldl (fun s fn => moveOne s fn (failP fn)) st).source <+ st.source := by
  intro files
  induction files with
  | nil => intro st; exact List.Sublist.refl _
  | cons a rest ih =>
    intro st
    refine (ih (moveOne st a (failP a))).trans ?_
    cases hfa : failP a with
    | true => simp [moveOne, hfa]
    | false =>
      simp only [moveOne, hfa, Bool.false_eq_true, if_false]
      exact List.eraseP_sublist _

theorem move_fold_spec (failP : String → Bool) :
    ∀ (chosen : List String) (st : DirState),
      chosen.Nodup →
      (∀ f ∈ chosen, f ∈ st.source.map Entry.name) →
      (st.source.map Entry.name).Nodup →
      ((∀ f ∈ chosen, failP f = false →
          f ∉ (chosen.foldl (fun s fn => moveOne s fn (failP fn)) st).source.map Entry.name)
      ∧ st.source.length
          = (chosen.foldl (fun s fn => moveOne s fn (failP fn)) st).source.length
            + (chosen.filter fun f => !failP f).length
      ∧ ∀ en ∈ st.source, en.name ∉ chosen →
          en ∈ (chosen.foldl (fun s fn => moveOne s fn (failP fn)) st).source) := by
  intro chosen
  induction chosen with
  | nil => intro st _ _ _; exact ⟨by simp, by simp, by simp⟩
  | cons a rest ih =>
    intro st hnd hsub hsrc
    have hanotr : a ∉ rest := (List.nodup_cons.1 hnd).1
    have hndr : rest.Nodup := (List.nodup_cons.1 hnd).2
    rw [List.foldl_cons]
    by_cases hfa0 : failP a = true
    · have hfa : failP a = true := hfa0
      have hstep : moveOne st a (failP a) = st := by simp [moveOne, hfa]
      rw [hstep]
      obtain ⟨h1, h2, h3⟩ :=
        ih st hndr (fun f hf => hsub f (List.mem_cons_of_mem a hf)) hsrc
      refine ⟨?_, ?_, ?_⟩
      · intro f hf hok
        rcases List.mem_cons.1 hf with rfl | hf'
        · rw [hfa] at hok; cases hok
        · exact h1 f hf' hok
      · rw [h2, List.filter_cons, hfa]
        simp
      · intro en hen hnot
        exact h3 en hen fun hmem => hnot (List.mem_cons_of_mem a hmem)
    · have hfa : failP a = false := by simpa using hfa0
      have hamem : a ∈ st.source.map Entry.name := hsub a (List.mem_cons_self a rest)
      have hsource' : (moveOne st a (failP a)).source
          = st.source.eraseP fun en => en.name == a := by
        simp [moveOne, hfa]
      have hnames' : (moveOne st a (failP a)).source.map Entry.name
          = (st.source.map Entry.name).erase a := by
        rw [hsource', List.erase_eq_eraseP', List.eraseP_map]
        rfl
      have hsrc' : ((moveOne st a (failP a)).source.map Entry.name).Nodup := by
        rw [hnames', List.erase_eq_eraseP']
        exact List.Nodup.eraseP _ hsrc
      have hsub' : ∀ f ∈ rest, f ∈ (moveOne st a (failP a)).source.map Entry.name := by
        intro f hf
        have hfa' : f ≠ a := fun h => hanotr (h ▸ hf)
        rw [hnames']
        exact (List.Nodup.mem_erase_iff hsrc).2
          ⟨hfa', hsub f (List.mem_cons_of_mem a hf)⟩
      have hlen' : (moveOne st a (failP a)).source.length = st.source.length - 1 := by
        have := congrArg List.length hnames'
        simpa [List.length_erase_of_mem hamem] using this
      have hpos : 0 < st.source.length := by
        have := List.length_pos_of_mem hamem
        simpa using this
      have hnotmem : a ∉ (moveOne st a (failP a)).source.map Entry.name := by
        rw [hnames']
        exact List.Nodup.not_mem_erase hsrc
      obtain ⟨h1, h2, h3⟩ := ih (moveOne st a (failP a)) hndr hsub' hsrc'
      refine ⟨?_, ?_, ?_⟩
      · intro f hf hok
        rcases List.mem_cons.1 hf with rfl | hf'
        · intro hmem
          exact hnotmem
            ((List.Sublist.map Entry.name
              (move_fold_source_sublist failP rest (moveOne st f (failP f)))).subset hmem)
        · exact h1 f hf' hok
      · have hfilter : List.filter (fun f => !failP f) (a :: rest)
            = a :: List.filter (fun f => !failP f) rest := by
          simp [List.filter_cons, hfa]
        rw [hfilter, List.length_cons]
        omega
      · intro en hen hnot
        have hne : en.name ≠ a := fun h => hnot (h ▸ List.mem_cons_self a rest)
        have hen' : en ∈ (moveOne st a (failP a)).source := by
          rw [hsource']
          exact (List.mem_eraseP_of_neg (by simp [hne])).2 hen
        exact h3 en hen' fun hmem => hnot (List.mem_cons_of_mem a hmem)

/-- **C7.** MOVE semantics: with valid inputs and a duplicate-free source
listing, after `move_files` every chosen file whose transfer did not fail is
absent from the source listing and present at the destination; the file count
is conserved — `source_before = source_after + moved_count` where
`moved_count` counts the chosen files whose transfer succeeded — and every
source entry that was not chosen remains in the source unchanged. -/
theorem move_files_move_semantics (st : DirState) (extension : Option String)
    (percentage : Option ℚ) (shuffle : List String → List String)
    (failP : String → Bool)
    (hdir : st.sourceIsDir = true) (hp : validatePercentage percentage = true)
    (hperm : ∀ l, shuffle l ~ l) (hnd : (st.source.map Entry.name).Nodup) :
    (∀ f ∈ chosenFiles st.source extension percentage shuffle, failP f = false →
        f ∉ (move_files st extension percentage shuffle failP).2.source.map Entry.name
        ∧ f ∈ (move_files st extension percentage shuffle failP).2.dest)
    ∧ st.source.length
        = (move_files st extension percentage shuffle failP).2.source.length
          + ((chosenFiles st.source extension percentage shuffle).filter
              fun f => !failP f).length
    ∧ ∀ en ∈ st.source, en.name ∉ chosenFiles st.source extension percentage shuffle →
        en ∈ (move_files st extension percentage shuffle failP).2.source := by
  have hres : (move_files st extension percentage shuffle failP).2
      = (chosenFiles st.source extension percentage shuffle).foldl
          (fun s fn => moveOne s fn (failP fn)) { st with destDirExists := true } := by
    simp [move_files, hdir, hp]
  obtain ⟨hcnd, hcsub⟩ :=
    chosenFiles_nodup_and_subset st.source extension percentage shuffle hperm hnd
  obtain ⟨h1, h2, h3⟩ := move_fold_spec failP
    (chosenFiles st.source extension percentage shuffle)
    { st with destDirExists := true } hcnd hcsub hnd
  refine ⟨fun f hf hok => ⟨?_, ?_⟩, ?_, ?_⟩
  · rw [hres]; exact h1 f hf hok
  · rw [hres]
    exact fold_dest_reaches _ failP
      (fun s fn x hx => moveOne_dest_keep s fn x (failP fn) hx)
      (fun s fn hz => by simp [moveOne, hz, mem_destInsert_self])
      _ _ f hf hok
  · rw [hres]; exact h2
  · intro en hen hnot
    rw [hres]; exact h3 en hen hnot

theorem move_files_move_semantics_witness :
    (∀ f ∈ chosenFiles [⟨"a", true⟩, ⟨"b", true⟩] none none id,
        (fun _ : String => false) f = false →
        f ∉ (move_files ⟨true, [⟨"a", true⟩, ⟨"b", true⟩], false, []⟩ none none id
              (fun _ => false)).2.source.map Entry.name
        ∧ f ∈ (move_files ⟨true, [⟨"a", true⟩, ⟨"b", true⟩], false, []⟩ none none id
              (fun _ => false)).2.dest)
    ∧ ([⟨"a", true⟩, ⟨"b", true⟩] : List Entry).length
        = (move_files ⟨true, [⟨"a", true⟩, ⟨"b", true⟩], false, []⟩ none none id
            (fun _ => false)).2.source.length
          + ((chosenFiles [⟨"a", true⟩, ⟨"b", true⟩] none none id).filter
              fun f => !(fun _ : String => false) f).length
    ∧ ∀ en ∈ ([⟨"a", true⟩, ⟨"b", true⟩] : List Entry),
        en.name ∉ chosenFiles [⟨"a", true⟩, ⟨"b", true⟩] none none id →
          en ∈ (move_files ⟨true, [⟨"a", true⟩, ⟨"b", true⟩], false, []⟩ none none id
              (fun _ => false)).2.source :=
  move_files_move_semantics ⟨true, [⟨"a", true⟩, ⟨"b", true⟩], false, []⟩ none none id
    (fun _ => false) rfl rfl (fun l => List.Perm.refl l) (by decide)

end DataPrep
